import Mathlib

/-!
Verification of the conditional-visibility and validation engine of the
questionnaire application (src/lib/forms/logic.ts, src/lib/forms/questionUtils.ts
and the zod-schema builder in src/lib — `buildZodSchema` / `buildQuestionSchema`).

The TypeScript code is shallowly embedded:
* form-data values (`string | number | boolean | string[]`, plus a possible
  stored `null`) become the inductive `Value`; numeric answer/comparison
  literals are modelled as integers, while JavaScript's `Number(...)`
  conversion is modelled by `JSNum` (NaN, the two infinities, or a finite
  rational) together with a faithful string-to-number parser;
* `Record<string, T>` objects become association lists with in-place update
  (`setEntry`), matching JavaScript's key-overwrite semantics;
* the zod validator chains become the deep embedding `Zod` with the
  acceptance semantics `zodAccepts` (zod's library-side behaviour such as
  `.email()` and NaN rejection of `z.coerce.number()` is modelled there).

All functions are total, which reflects the source's never-throws design.
-/

namespace Oprosniy

/-! ## JavaScript number model -/

/-- A JavaScript number as relevant to the engine: NaN, ±Infinity, or a
finite value (modelled as a rational). -/
inductive JSNum where
  | nan
  | posInf
  | negInf
  | fin (q : Rat)
deriving DecidableEq, Repr

/-- Models JavaScript's `isNaN` on a number. -/
def JSNum.isNaN : JSNum → Bool
  | .nan => true
  | _ => false

/-- Unary minus on a JavaScript number. -/
def JSNum.neg : JSNum → JSNum
  | .nan => .nan
  | .posInf => .negInf
  | .negInf => .posInf
  | .fin q => .fin (-q)

/-- The strict `<` comparison of JavaScript on numbers (false whenever an
operand is NaN). -/
def jsLt : JSNum → JSNum → Bool
  | .nan, _ => false
  | _, .nan => false
  | .posInf, _ => false
  | .negInf, .posInf => true
  | .negInf, .fin _ => true
  | .negInf, .negInf => false
  | .fin _, .posInf => true
  | .fin _, .negInf => false
  | .fin a, .fin b => decide (a < b)

/-- The strict `>` comparison of JavaScript on numbers. -/
def jsGt (a b : JSNum) : Bool := jsLt b a

/-- `n >= m` for a JavaScript number against an integer bound (used by the
zod `.min` check on coerced numbers). -/
def jsGeInt (n : JSNum) (m : Int) : Bool :=
  match n with
  | .nan => false
  | .posInf => true
  | .negInf => false
  | .fin q => decide ((m : Rat) ≤ q)

/-- `n <= m` for a JavaScript number against an integer bound (zod `.max`). -/
def jsLeInt (n : JSNum) (m : Int) : Bool :=
  match n with
  | .nan => false
  | .posInf => false
  | .negInf => true
  | .fin q => decide (q ≤ (m : Rat))

/-! ### String-to-number conversion (`Number(string)`) -/

/-- JavaScript string whitespace (the common code points). -/
def isJsWhitespace (c : Char) : Bool :=
  c = ' ' || c = '\t' || c = '\n' || c = '\r' || c = '\x0b' || c = '\x0c'

/-- Decimal digits to a natural number. -/
def digitsToNat (cs : List Char) : Nat :=
  cs.foldl (fun n c => n * 10 + (c.toNat - 48)) 0

/-- Hexadecimal digit test. -/
def isHexDigit (c : Char) : Bool :=
  c.isDigit || ('a' ≤ c && c ≤ 'f') || ('A' ≤ c && c ≤ 'F')

/-- Hexadecimal digit value. -/
def hexVal (c : Char) : Nat :=
  if c.isDigit then c.toNat - 48
  else if 'a' ≤ c && c ≤ 'f' then c.toNat - 87
  else c.toNat - 55

/-- Hexadecimal digits to a natural number. -/
def hexToNat (cs : List Char) : Nat :=
  cs.foldl (fun n c => n * 16 + hexVal c) 0

/-- Digits of a given base to a natural number. -/
def baseToNat (base : Nat) (cs : List Char) : Nat :=
  cs.foldl (fun n c => n * base + (c.toNat - 48)) 0

/-- The rational `ip.fp × 10^e` named by an integer digit part, a fractional
digit part and a base-10 exponent, built as one quotient of integers. -/
def ratOfDigits (ip fp : List Char) (e : Int) : Rat :=
  let m : Nat := digitsToNat (ip ++ fp)
  let shift : Int := e - (fp.length : Int)
  if 0 ≤ shift then mkRat ((m : Int) * (10 : Int) ^ shift.toNat) 1
  else mkRat (m : Int) ((10 : Nat) ^ (-shift).toNat)

/-- Parses an optional exponent tail (`e`/`E`, optional sign, digits); `none`
signals a malformed remainder. -/
def parseExpTail (cs : List Char) : Option Int :=
  match cs with
  | [] => some 0
  | c :: rest =>
    if c = 'e' ∨ c = 'E' then
      match rest with
      | '+' :: ds => if ds ≠ [] ∧ ds.all Char.isDigit then some (digitsToNat ds : Int) else none
      | '-' :: ds => if ds ≠ [] ∧ ds.all Char.isDigit then some (-(digitsToNat ds : Int)) else none
      | ds => if ds ≠ [] ∧ ds.all Char.isDigit then some (digitsToNat ds : Int) else none
    else none

/-- Parses an unsigned JavaScript decimal numeric literal (or `Infinity`);
yields NaN on failure. -/
def parseUnsigned (cs : List Char) : JSNum :=
  if cs = "Infinity".data then .posInf
  else
    let ip := cs.takeWhile Char.isDigit
    let rest := cs.dropWhile Char.isDigit
    match rest with
    | '.' :: rest2 =>
      let fp := rest2.takeWhile Char.isDigit
      let rest3 := rest2.dropWhile Char.isDigit
      if ip = [] ∧ fp = [] then .nan
      else
        match parseExpTail rest3 with
        | some e => .fin (ratOfDigits ip fp e)
        | none => .nan
    | _ =>
      if ip = [] then .nan
      else
        match parseExpTail rest with
        | some e => .fin (ratOfDigits ip [] e)
        | none => .nan

/-- Parses a non-decimal (`0x` / `0o` / `0b`) JavaScript integer literal. -/
def parseNonDec (cs : List Char) : JSNum :=
  match cs with
  | '0' :: x :: ds =>
    if x = 'x' ∨ x = 'X' then
      if ds ≠ [] ∧ ds.all isHexDigit then .fin (hexToNat ds : Rat) else .nan
    else if x = 'o' ∨ x = 'O' then
      if ds ≠ [] ∧ ds.all (fun c => '0' ≤ c ∧ c ≤ '7') then .fin (baseToNat 8 ds : Rat) else .nan
    else if x = 'b' ∨ x = 'B' then
      if ds ≠ [] ∧ ds.all (fun c => c = '0' ∨ c = '1') then .fin (baseToNat 2 ds : Rat) else .nan
    else .nan
  | _ => .nan

/-- Models JavaScript's `Number(string)` conversion: trimmed whitespace, the
empty string is 0, signed decimal literals with optional fraction/exponent,
`Infinity`, and the `0x`/`0o`/`0b` integer literals; anything else is NaN. -/
def parseJSNumber (s : String) : JSNum :=
  let cs := ((s.data.dropWhile isJsWhitespace).reverse.dropWhile isJsWhitespace).reverse
  match cs with
  | [] => .fin 0
  | '+' :: rest => parseUnsigned rest
  | '-' :: rest => (parseUnsigned rest).neg
  | '0' :: c :: _ =>
    if c = 'x' ∨ c = 'X' ∨ c = 'o' ∨ c = 'O' ∨ c = 'b' ∨ c = 'B' then parseNonDec cs
    else parseUnsigned cs
  | _ => parseUnsigned cs

/-! ## Form data values -/

/-- A stored answer value: `string | number | boolean | string[]`, plus an
explicit `null` (the engine guards against a stored null). Numeric values
are modelled as integers. -/
inductive Value where
  | str (s : String)
  | num (n : Int)
  | bool (b : Bool)
  | list (l : List String)
  | null
deriving DecidableEq, Repr

/-- Models JavaScript's `String(value)` on a stored answer value. -/
def jsString : Value → String
  | .str s => s
  | .num n => toString n
  | .bool b => cond b "true" "false"
  | .list l => String.intercalate "," l
  | .null => "null"

/-- Models JavaScript's `Number(value)` on a stored answer value. -/
def jsToNumber : Value → JSNum
  | .str s => parseJSNumber s
  | .num n => .fin (n : Rat)
  | .bool b => .fin (cond b 1 0)
  | .list l => parseJSNumber (String.intercalate "," l)
  | .null => .fin 0

/-- An answer set: `Record<questionId, value>`, modelled as an association
list (a missing key is JavaScript's `undefined`). -/
def FormAnswers := List (String × Value)

/-- Property access `m[j]` on a string-keyed object. -/
def lookupKey {α : Type} (j : String) : List (String × α) → Option α
  | [] => none
  | (k, v) :: rest => if k = j then some v else lookupKey j rest

/-- Substring containment, modelling JavaScript's `String.prototype.includes`. -/
def strIncludes (s pat : String) : Bool :=
  go s.data
where
  go : List Char → Bool
    | [] => pat.data.isPrefixOf []
    | c :: rest => pat.data.isPrefixOf (c :: rest) || go rest

/-! ## Schema types (src/lib/forms/schema.ts) -/

/-- Comparison operator of a logic condition. -/
inductive Operator where
  | equals
  | notEquals
  | contains
  | greaterThan
  | lessThan
deriving DecidableEq, Repr

/-- Action of a logic rule. -/
inductive Action where
  | show
  | hide
  | require
  | optional
deriving DecidableEq, Repr

/-- A logic-rule comparison value: `string | number | boolean`. -/
inductive LValue where
  | str (s : String)
  | num (n : Int)
  | bool (b : Bool)
deriving DecidableEq, Repr

/-- `String(value)` on a comparison value. -/
def jsStringL : LValue → String
  | .str s => s
  | .num n => toString n
  | .bool b => cond b "true" "false"

/-- `Number(value)` on a comparison value. -/
def jsToNumberL : LValue → JSNum
  | .str s => parseJSNumber s
  | .num n => .fin (n : Rat)
  | .bool b => .fin (cond b 1 0)

/-- The condition of a logic rule. -/
structure Condition where
  questionId : String
  operator : Operator
  value : LValue
deriving DecidableEq, Repr

/-- A logic rule: a condition plus an action. -/
structure Logic where
  condition : Condition
  action : Action
deriving DecidableEq, Repr

/-- The closed set of question types. -/
inductive QuestionType where
  | text
  | textarea
  | number
  | email
  | tel
  | date
  | select
  | radio
  | checkbox
  | file
deriving DecidableEq, Repr

/-- Declared validation constraints of a question. -/
structure Validation where
  min : Option Int := none
  max : Option Int := none
  pattern : Option String := none
  message : Option String := none
deriving DecidableEq, Repr

/-- A question definition. -/
structure Question where
  id : String
  type : QuestionType
  label : String
  placeholder : Option String := none
  required : Option Bool := none
  options : Option (List String) := none
  validation : Option Validation := none
  logic : Option (List Logic) := none
deriving DecidableEq, Repr

/-- A section definition. -/
structure Section where
  id : String
  title : String := ""
  questions : List Question
  logic : Option (List Logic) := none
deriving DecidableEq, Repr

/-- A form definition. -/
structure Form where
  id : String := ""
  slug : String := ""
  title : String := ""
  sections : List Section
deriving DecidableEq, Repr

/-- Truthiness of an optional boolean flag (`undefined` and `false` are falsy). -/
def boolTruthy (b : Option Bool) : Bool := b.getD false

/-! ## Condition evaluator (src/lib/forms/logic.ts, `evaluateCondition`) -/

/-- Evaluates a single logic condition against an answer set. Mirrors
`evaluateCondition`: an absent, `null`, or empty-string source answer makes
the condition false; otherwise the operator dispatch runs on the stringified
or numerically converted values. The function is total, reflecting that the
source never throws. -/
def evaluateCondition (condition : Condition) (answers : FormAnswers) : Bool :=
  match lookupKey condition.questionId answers with
  | none => false
  | some answer =>
    if answer = .null ∨ answer = .str "" then false
    else
      match condition.operator with
      | .equals => jsString answer == jsStringL condition.value
      | .notEquals => !(jsString answer == jsStringL condition.value)
      | .contains =>
        match answer with
        | .list l => l.contains (jsStringL condition.value)
        | _ => strIncludes (jsString answer) (jsStringL condition.value)
      | .greaterThan =>
        let numAnswer := jsToNumber answer
        let numValue := jsToNumberL condition.value
        !numAnswer.isNaN && !numValue.isNaN && jsGt numAnswer numValue
      | .lessThan =>
        let numAnswer2 := jsToNumber answer
        let numValue2 := jsToNumberL condition.value
        !numAnswer2.isNaN && !numValue2.isNaN && jsLt numAnswer2 numValue2

/-! ## Rule-set aggregation (src/lib/forms/logic.ts, `evaluateQuestionLogic`) -/

/-- Evaluates all logic rules of one subject (question or section).
Mirrors `evaluateQuestionLogic`: the loop accumulates
`(hasShowRule, showRuleResult, hasHideRule, hideRuleResult)`; with no rules
the subject is visible; show-rules OR together and a true hide-rule takes
precedence; with only hide-rules, visibility is the negation of their OR.
The `questionId` parameter is kept although, as in the source, it is unused. -/
def evaluateQuestionLogic (questionId : String) (logicRules : List Logic)
    (answers : FormAnswers) : Bool :=
  if logicRules.length = 0 then true
  else
    let acc := logicRules.foldl
      (fun (st : Bool × Bool × Bool × Bool) rule =>
        let conditionResult := evaluateCondition rule.condition answers
        match rule.action with
        | .show => (true, st.2.1 || conditionResult, st.2.2.1, st.2.2.2)
        | .hide => (st.1, st.2.1, true, st.2.2.2 || conditionResult)
        | _ => st)
      (false, false, false, false)
    if acc.1 then
      if acc.2.2.1 && acc.2.2.2 then false else acc.2.1
    else if acc.2.2.1 then !acc.2.2.2
    else true

/-! ## Record model: a JavaScript object as an association list -/

/-- `obj[k] = v` on a string-keyed object: replace the value in place if the
key exists, otherwise append the new entry. -/
def setEntry {α : Type} : List (String × α) → String → α → List (String × α)
  | [], k, v => [(k, v)]
  | p :: rest, k, v => if p.1 = k then (k, v) :: rest else p :: setEntry rest k v

/-- The keys of an object. -/
def keys {α : Type} (m : List (String × α)) : List String := m.map Prod.fst

/-! ## Visibility resolver (src/lib/forms/logic.ts, `evaluateVisibility`) -/

/-- Section visibility: `true` unless the section has a nonempty rule list,
in which case the rule-set aggregation decides. -/
def sectionVisibleValue (answers : FormAnswers) (sec : Section) : Bool :=
  match sec.logic with
  | some l => if 0 < l.length then evaluateQuestionLogic sec.id l answers else true
  | none => true

/-- The visibility value written for a question of a section with the given
section visibility: hidden sections force `false`; otherwise nonempty
question rules are aggregated, and rule-less questions are visible. -/
def questionVisValue (sectionVisible : Bool) (answers : FormAnswers)
    (question : Question) : Bool :=
  if !sectionVisible then false
  else
    match question.logic with
    | some l => if 0 < l.length then evaluateQuestionLogic question.id l answers else true
    | none => true

/-- Processes one section of `evaluateVisibility`'s `forEach`: writes the
section entry, then one entry per question. -/
def processSection (answers : FormAnswers) (visibility : List (String × Bool))
    (sec : Section) : List (String × Bool) :=
  let sectionVisible := sectionVisibleValue answers sec
  sec.questions.foldl
    (fun vis question => setEntry vis question.id (questionVisValue sectionVisible answers question))
    (setEntry visibility sec.id sectionVisible)

/-- Evaluates visibility for all sections and questions of a form. Mirrors
`evaluateVisibility`: a map (object) from section/question id to a boolean. -/
def evaluateVisibility (form : Form) (answers : FormAnswers) : List (String × Bool) :=
  form.sections.foldl (processSection answers) []

/-- Mirrors `getVisibleQuestionIds`: the ids of all entries of the visibility
map whose value is true (the returned `Set` is modelled as a list). -/
def getVisibleQuestionIds (form : Form) (answers : FormAnswers) : List String :=
  ((evaluateVisibility form answers).filter (fun p => p.2)).map (fun p => p.1)

/-- The ids written by `evaluateVisibility`, in processing order: for each
section its own id followed by its questions' ids. -/
def allIds : List Section → List String
  | [] => []
  | sec :: rest => (sec.id :: sec.questions.map Question.id) ++ allIds rest

/-! ## Question utilities (src/lib/forms/questionUtils.ts) -/

/-- Models `label.toLowerCase()` character-wise. -/
def strToLower (s : String) : String := ⟨s.data.map Char.toLower⟩

/-- Mirrors `isConsentQuestion`: a checkbox whose lower-cased label contains
one of the consent keywords. -/
def isConsentQuestion (question : Question) : Bool :=
  let label := strToLower question.label
  decide (question.type = .checkbox) &&
    (strIncludes label "consent" || strIncludes label "agree" ||
      strIncludes label "accept" || strIncludes label "terms")

/-- Mirrors `isSignatureQuestion`: a text question whose lower-cased label
contains "signature" or "sign". -/
def isSignatureQuestion (question : Question) : Bool :=
  let label := strToLower question.label
  decide (question.type = .text) &&
    (strIncludes label "signature" || strIncludes label "sign")

/-! ## Regex models -/

/-- One chunk of a linear regular expression: a character class with a
repetition range. -/
structure Chunk where
  pred : Char → Bool
  lo : Nat
  hi : Nat

/-- Consumes exactly `n` characters satisfying `p`. -/
def takeSat (p : Char → Bool) : Nat → List Char → Option (List Char)
  | 0, cs => some cs
  | _ + 1, [] => none
  | n + 1, c :: rest => if p c then takeSat p n rest else none

/-- Anchored match of a sequence of chunks against a character list, trying
every repetition count in each chunk's range (backtracking). -/
def matchChunks : List Chunk → List Char → Bool
  | [], cs => cs.isEmpty
  | ch :: rest, cs =>
    (List.range (ch.hi + 1 - ch.lo)).any fun i =>
      match takeSat ch.pred (ch.lo + i) cs with
      | some cs2 => matchChunks rest cs2
      | none => false

/-- The `[-\s.]` character class of the phone pattern. -/
def isSepChar (c : Char) : Bool :=
  c = '-' || c = ' ' || c = '\t' || c = '\n' || c = '\r' || c = '\x0b' || c = '\x0c' || c = '.'

/-- The `PHONE_REGEX` pattern
`^[+]?[(]?[0-9]{1,4}[)]?[-\s.]?[(]?[0-9]{1,4}[)]?[-\s.]?[0-9]{1,9}$`
compiled to chunks. -/
def phoneChunks : List Chunk :=
  [⟨(· = '+'), 0, 1⟩, ⟨(· = '('), 0, 1⟩, ⟨Char.isDigit, 1, 4⟩, ⟨(· = ')'), 0, 1⟩,
   ⟨isSepChar, 0, 1⟩, ⟨(· = '('), 0, 1⟩, ⟨Char.isDigit, 1, 4⟩, ⟨(· = ')'), 0, 1⟩,
   ⟨isSepChar, 0, 1⟩, ⟨Char.isDigit, 1, 9⟩]

/-- Anchored test of a string against the phone pattern. -/
def phoneTest (s : String) : Bool := matchChunks phoneChunks s.data

/-- Splits a character list at every occurrence of `sep`. -/
def splitOnChar (sep : Char) : List Char → List (List Char)
  | [] => [[]]
  | c :: rest =>
    let r := splitOnChar sep rest
    if c = sep then [] :: r
    else
      match r with
      | [] => [[c]]
      | g :: gs => (c :: g) :: gs

/-- Character class of the local part of the zod email pattern (excluding the
terminal character restriction). -/
def emailLocalChar (c : Char) : Bool :=
  c.isAlpha || c.isDigit || c = '_' || c.toNat = 39 || c = '+' || c = '-' || c = '.'

/-- Terminal character of the local part of the zod email pattern. -/
def emailLocalLastChar (c : Char) : Bool :=
  c.isAlpha || c.isDigit || c = '_' || c = '+' || c = '-'

/-- A domain label: alphanumeric first character, then alphanumerics or `-`. -/
def emailLabelOk (cs : List Char) : Bool :=
  match cs with
  | [] => false
  | c :: rest => (c.isAlpha || c.isDigit) && rest.all (fun d => d.isAlpha || d.isDigit || d = '-')

/-- Whether a character list contains two consecutive dots. -/
def hasDoubleDot : List Char → Bool
  | [] => false
  | [_] => false
  | c :: d :: rest => (c = '.' && d = '.') || hasDoubleDot (d :: rest)

/-- Models the zod library's `.email()` check (its case-insensitive email
regex: no leading dot, no double dot, a local part over `[A-Z0-9_'+-.]`
ending in `[A-Z0-9_+-]`, then `@`, then dot-separated domain labels with a
purely alphabetic final label of length at least 2). -/
def zodEmailCheck (s : String) : Bool :=
  let cs := s.data
  !(hasDoubleDot cs) &&
    (match cs with | '.' :: _ => false | _ => true) &&
    (match cs.takeWhile (· ≠ '@'), cs.dropWhile (· ≠ '@') with
     | local_, '@' :: domain =>
       local_.all emailLocalChar &&
       (match local_.getLast? with | some c => emailLocalLastChar c | none => false) &&
       (let parts := splitOnChar '.' domain
        match parts.reverse with
        | tld :: labels =>
          decide (2 ≤ tld.length) && tld.all Char.isAlpha &&
            !labels.isEmpty && labels.all emailLabelOk
        | [] => false)
     | _, _ => false)

/-! ## Deep embedding of the zod schemas built by the validator builder -/

/-- The zod schema shapes used by `buildQuestionSchema` / `buildZodSchema`.
`zString` carries the accumulated `.email()` / `.regex(PHONE_REGEX)` /
`.min(n)` checks; `zCoerceNumber` the accumulated `.min` / `.max` bounds. -/
inductive Zod where
  | zAny
  | zString (emailCheck : Bool) (phoneCheck : Bool) (minLen : Option Nat)
  | zCoerceNumber (mins : List Int) (maxs : List Int)
  | zBoolean
  | zArrayString (minLen : Option Nat)
  | zOptional (inner : Zod)
  | zRefineIsTrue (inner : Zod)
  | zRefinePhoneOrEmpty (inner : Zod)
deriving DecidableEq, Repr

/-- zod's polymorphic `.min`: a length bound on strings and arrays, an added
lower bound on coerced numbers. -/
def Zod.zmin (s : Zod) (n : Int) : Zod :=
  match s with
  | .zString e p _ => .zString e p (some n.toNat)
  | .zCoerceNumber mins maxs => .zCoerceNumber (mins ++ [n]) maxs
  | .zArrayString _ => .zArrayString (some n.toNat)
  | s => s

/-- zod's `.max` on coerced numbers. -/
def Zod.zmax (s : Zod) (n : Int) : Zod :=
  match s with
  | .zCoerceNumber mins maxs => .zCoerceNumber mins (maxs ++ [n])
  | s => s

/-- zod's `.email()` on a string schema. -/
def Zod.email (s : Zod) : Zod :=
  match s with
  | .zString _ p m => .zString true p m
  | s => s

/-- `.regex(PHONE_REGEX)` on a string schema. -/
def Zod.regexPhone (s : Zod) : Zod :=
  match s with
  | .zString e _ m => .zString e true m
  | s => s

/-- zod's `.optional()`. -/
def Zod.optional (s : Zod) : Zod := .zOptional s

/-- zod's `.refine(val => val === true)`. -/
def Zod.refineIsTrue (s : Zod) : Zod := .zRefineIsTrue s

/-- The tel branch's `.refine(val => !val || PHONE_REGEX.test(val))`. -/
def Zod.refinePhoneOrEmpty (s : Zod) : Zod := .zRefinePhoneOrEmpty s

/-- Whether a schema accepts a value (`none` is JavaScript's `undefined`).
Models zod's parse: type checks, the accumulated checks, `.optional()`
accepting only `undefined` beyond the inner schema, `.refine` running after
the inner parse, and `z.coerce.number()` converting with `Number(...)` and
rejecting NaN. -/
def zodAccepts : Zod → Option Value → Bool
  | .zAny, _ => true
  | .zString e p m, some (.str s) =>
    (!e || zodEmailCheck s) && (!p || phoneTest s) &&
      (match m with | some n => decide (n ≤ s.length) | none => true)
  | .zString _ _ _, _ => false
  | .zCoerceNumber mins maxs, v =>
    let n := match v with | some w => jsToNumber w | none => JSNum.nan
    !n.isNaN && mins.all (fun m => jsGeInt n m) && maxs.all (fun m => jsLeInt n m)
  | .zBoolean, some (.bool _) => true
  | .zBoolean, _ => false
  | .zArrayString m, some (.list l) =>
    (match m with | some n => decide (n ≤ l.length) | none => true)
  | .zArrayString _, _ => false
  | .zOptional _, none => true
  | .zOptional s, some v => zodAccepts s (some v)
  | .zRefineIsTrue s, v =>
    zodAccepts s v && (match v with | some (.bool true) => true | _ => false)
  | .zRefinePhoneOrEmpty s, v =>
    zodAccepts s v &&
      (match v with
       | some (.str t) => t == "" || phoneTest t
       | _ => true)

/-! ## Validator builder (`buildQuestionSchema` / `buildZodSchema`) -/

/-- Truthiness of `question.validation?.pattern` (absent or empty is falsy). -/
def patternTruthy (question : Question) : Bool :=
  match question.validation.bind Validation.pattern with
  | some p => !(p == "")
  | none => false

/-- Builds the zod schema for a single visible question. A line-by-line
mirror of `buildQuestionSchema`. -/
def buildQuestionSchema (question : Question) : Zod :=
  match question.type with
  | .text | .textarea | .email =>
    if isSignatureQuestion question then (Zod.zString false false none).zmin 1
    else
      let stringSchema := Zod.zString false false none
      let stringSchema :=
        if decide (question.type = .email) && patternTruthy question then stringSchema.email
        else stringSchema
      if boolTruthy question.required then stringSchema.zmin 1
      else stringSchema.optional
  | .tel =>
    if boolTruthy question.required then
      ((Zod.zString false false none).zmin 1).regexPhone
    else
      ((Zod.zString false false none).optional).refinePhoneOrEmpty
  | .number =>
    let numberSchema := Zod.zCoerceNumber [] []
    let numberSchema :=
      match question.validation.bind Validation.min with
      | some m => numberSchema.zmin m
      | none => numberSchema
    let numberSchema :=
      match question.validation.bind Validation.max with
      | some m => numberSchema.zmax m
      | none => numberSchema
    if boolTruthy question.required then numberSchema.zmin 0
    else numberSchema.optional
  | .date =>
    if boolTruthy question.required then (Zod.zString false false none).zmin 1
    else (Zod.zString false false none).optional
  | .select =>
    if boolTruthy question.required then (Zod.zString false false none).zmin 1
    else (Zod.zString false false none).optional
  | .radio =>
    if boolTruthy question.required then (Zod.zString false false none).zmin 1
    else (Zod.zString false false none).optional
  | .checkbox =>
    if isConsentQuestion question then Zod.zBoolean.refineIsTrue
    else if (question.options.getD []).length > 0 then
      if boolTruthy question.required then (Zod.zArrayString none).zmin 1
      else (Zod.zArrayString none).optional
    else if boolTruthy question.required then Zod.zBoolean.refineIsTrue
    else Zod.zBoolean.optional
  | .file => Zod.zAny.optional

/-- The schema stored for one question of the form: a hidden question (id not
in `visibleQuestionIds`) gets `z.any().optional()`, a visible one its
`buildQuestionSchema`. -/
def schemaVal (visibleQuestionIds : List String) (question : Question) : Zod :=
  if !(visibleQuestionIds.contains question.id) then Zod.zAny.optional
  else buildQuestionSchema question

/-- Builds the object schema for a form: hidden questions get
`z.any().optional()`, visible ones `buildQuestionSchema`. Mirrors
`buildZodSchema` (the `visibleQuestionIds` set is modelled as a list). -/
def buildZodSchema (form : Form) (visibleQuestionIds : List String) :
    List (String × Zod) :=
  form.sections.foldl
    (fun schemaObject sec =>
      sec.questions.foldl
        (fun so question => setEntry so question.id (schemaVal visibleQuestionIds question))
        schemaObject)
    []

/-- The per-field result of validating an answer set against an object
schema: the field's schema (when one exists) applied to the stored value. -/
def fieldPasses (schemaObject : List (String × Zod)) (answers : FormAnswers)
    (questionId : String) : Bool :=
  match lookupKey questionId schemaObject with
  | some sch => zodAccepts sch (lookupKey questionId answers)
  | none => true

/-! ## Lemmas about the object model -/

theorem lookup_setEntry_self {α : Type} (m : List (String × α)) (k : String) (v : α) :
    lookupKey k (setEntry m k v) = some v := by
  induction m with
  | nil => simp [setEntry, lookupKey]
  | cons p rest ih =>
    obtain ⟨a, b⟩ := p
    by_cases h : a = k
    · simp [setEntry, h, lookupKey]
    · simp [setEntry, h, lookupKey, ih]

theorem lookup_setEntry_ne {α : Type} (m : List (String × α)) (k : String) (v : α)
    (j : String) (h : j ≠ k) :
    lookupKey j (setEntry m k v) = lookupKey j m := by
  induction m with
  | nil => simp [setEntry, lookupKey, Ne.symm h]
  | cons p rest ih =>
    obtain ⟨a, b⟩ := p
    by_cases ha : a = k
    · subst ha
      simp [setEntry, lookupKey, Ne.symm h]
    · simp [setEntry, ha, lookupKey, ih]

theorem mem_keys_setEntry {α : Type} (m : List (String × α)) (k : String) (v : α)
    (j : String) :
    j ∈ keys (setEntry m k v) ↔ j ∈ keys m ∨ j = k := by
  induction m with
  | nil => simp [setEntry, keys]
  | cons p rest ih =>
    obtain ⟨a, b⟩ := p
    by_cases h : a = k
    · subst h
      simp [setEntry, keys]
      tauto
    · simp [setEntry, h, keys] at ih ⊢
      tauto

theorem nodup_keys_setEntry {α : Type} (m : List (String × α)) (k : String) (v : α)
    (h : (keys m).Nodup) : (keys (setEntry m k v)).Nodup := by
  induction m with
  | nil => simp [setEntry, keys]
  | cons p rest ih =>
    obtain ⟨a, b⟩ := p
    rw [keys, List.map_cons, List.nodup_cons] at h
    by_cases ha : a = k
    · subst ha
      simpa [setEntry, keys, List.nodup_cons] using h
    · have hrest := ih h.2
      rw [setEntry]
      simp only [ha, if_false]
      rw [keys, List.map_cons, List.nodup_cons]
      refine ⟨fun hmem => ?_, hrest⟩
      rcases (mem_keys_setEntry rest k v a).1 hmem with hk | hk
      · exact h.1 hk
      · exact ha hk

theorem lookup_eq_some_iff_mem {α : Type} (m : List (String × α)) (j : String) (v : α)
    (h : (keys m).Nodup) :
    lookupKey j m = some v ↔ (j, v) ∈ m := by
  induction m with
  | nil => simp [lookupKey]
  | cons p rest ih =>
    obtain ⟨a, b⟩ := p
    rw [keys, List.map_cons, List.nodup_cons] at h
    by_cases hj : a = j
    · subst hj
      rw [lookupKey, if_pos rfl]
      constructor
      · intro h2
        obtain rfl : b = v := Option.some.inj h2
        exact List.mem_cons_self _ _
      · intro h2
        rcases List.mem_cons.1 h2 with h3 | hmem
        · have hb : v = b := congrArg Prod.snd h3
          rw [hb]
        · exact absurd (List.mem_map_of_mem Prod.fst hmem) h.1
    · rw [lookupKey, if_neg hj, ih h.2]
      constructor
      · exact fun hmem => List.mem_cons_of_mem _ hmem
      · intro h2
        rcases List.mem_cons.1 h2 with h3 | hmem
        · exact absurd (congrArg Prod.fst h3.symm) hj
        · exact hmem

/-! Generic lemmas about a left fold writing one entry per question. -/

theorem lookup_foldl_setEntry_notMem {α : Type} (val : Question → α)
    (qs : List Question) (m : List (String × α)) (j : String)
    (h : j ∉ qs.map Question.id) :
    lookupKey j (qs.foldl (fun acc q => setEntry acc q.id (val q)) m) =
      lookupKey j m := by
  induction qs generalizing m with
  | nil => rfl
  | cons q rest ih =>
    simp at h
    rw [List.foldl_cons, ih _ (by simpa using h.2),
      lookup_setEntry_ne _ _ _ _ (fun hj => h.1 (by simp [hj]))]

theorem lookup_foldl_setEntry_mem {α : Type} (val : Question → α)
    (qs : List Question) (m : List (String × α)) (q : Question)
    (hnd : (qs.map Question.id).Nodup) (hq : q ∈ qs) :
    lookupKey q.id (qs.foldl (fun acc q' => setEntry acc q'.id (val q')) m) =
      some (val q) := by
  induction qs generalizing m with
  | nil => cases hq
  | cons p rest ih =>
    simp at hnd
    rcases List.mem_cons.1 hq with rfl | hmem
    · rw [List.foldl_cons,
        lookup_foldl_setEntry_notMem _ _ _ _ (by simpa using hnd.1),
        lookup_setEntry_self]
    · exact ih _ hnd.2 hmem

theorem mem_keys_foldl_setEntry {α : Type} (val : Question → α)
    (qs : List Question) (m : List (String × α)) (j : String) :
    j ∈ keys (qs.foldl (fun acc q => setEntry acc q.id (val q)) m) ↔
      j ∈ keys m ∨ j ∈ qs.map Question.id := by
  induction qs generalizing m with
  | nil => simp
  | cons q rest ih =>
    rw [List.foldl_cons, ih]
    simp [mem_keys_setEntry]
    tauto

theorem nodup_keys_foldl_setEntry {α : Type} (val : Question → α)
    (qs : List Question) (m : List (String × α)) (h : (keys m).Nodup) :
    (keys (qs.foldl (fun acc q => setEntry acc q.id (val q)) m)).Nodup := by
  induction qs generalizing m with
  | nil => exact h
  | cons q rest ih => exact ih _ (nodup_keys_setEntry _ _ _ h)

theorem lookup_foldl_setEntry_const {α : Type} (val : Question → α)
    (qs : List Question) (m : List (String × α)) (j : String) (V : α)
    (hval : ∀ q ∈ qs, q.id = j → val q = V)
    (h : lookupKey j m = some V) :
    lookupKey j (qs.foldl (fun acc q => setEntry acc q.id (val q)) m) = some V := by
  induction qs generalizing m with
  | nil => exact h
  | cons q rest ih =>
    rw [List.foldl_cons]
    refine ih _ (fun q' hq' => hval q' (List.mem_cons_of_mem _ hq')) ?_
    by_cases hid : q.id = j
    · rw [hval q (List.mem_cons_self _ _) hid, ← hid, lookup_setEntry_self]
    · rw [lookup_setEntry_ne _ _ _ _ (Ne.symm hid)]
      exact h

theorem lookup_foldl_setEntry_write {α : Type} (val : Question → α)
    (qs : List Question) (m : List (String × α)) (j : String) (V : α) (q : Question)
    (hq : q ∈ qs) (hid : q.id = j)
    (hval : ∀ q' ∈ qs, q'.id = j → val q' = V) :
    lookupKey j (qs.foldl (fun acc q' => setEntry acc q'.id (val q')) m) = some V := by
  induction qs generalizing m with
  | nil => cases hq
  | cons p rest ih =>
    rcases List.mem_cons.1 hq with rfl | hmem
    · rw [List.foldl_cons]
      refine lookup_foldl_setEntry_const _ _ _ _ _
        (fun q' hq' => hval q' (List.mem_cons_of_mem _ hq')) ?_
      rw [hval q (List.mem_cons_self _ _) hid, ← hid, lookup_setEntry_self]
    · exact ih _ hmem (fun q' hq' => hval q' (List.mem_cons_of_mem _ hq'))

/-! Lemmas about `processSection` and the fold over sections. -/

theorem lookup_processSection_notMem (answers : FormAnswers) (m : List (String × Bool))
    (sec : Section) (j : String) (hj : j ≠ sec.id) (hq : j ∉ sec.questions.map Question.id) :
    lookupKey j (processSection answers m sec) = lookupKey j m := by
  rw [processSection, lookup_foldl_setEntry_notMem _ _ _ _ hq, lookup_setEntry_ne _ _ _ _ hj]

theorem lookup_processSection_self (answers : FormAnswers) (m : List (String × Bool))
    (sec : Section) (h : sec.id ∉ sec.questions.map Question.id) :
    lookupKey sec.id (processSection answers m sec) = some (sectionVisibleValue answers sec) := by
  rw [processSection, lookup_foldl_setEntry_notMem _ _ _ _ h, lookup_setEntry_self]

theorem lookup_processSection_question (answers : FormAnswers) (m : List (String × Bool))
    (sec : Section) (q : Question) (hq : q ∈ sec.questions)
    (hnd : (sec.questions.map Question.id).Nodup) :
    lookupKey q.id (processSection answers m sec) =
      some (questionVisValue (sectionVisibleValue answers sec) answers q) := by
  rw [processSection, lookup_foldl_setEntry_mem _ _ _ _ hnd hq]

theorem mem_keys_processSection (answers : FormAnswers) (m : List (String × Bool))
    (sec : Section) (j : String) :
    j ∈ keys (processSection answers m sec) ↔
      j ∈ keys m ∨ j ∈ sec.id :: sec.questions.map Question.id := by
  rw [processSection, mem_keys_foldl_setEntry]
  simp [mem_keys_setEntry]
  tauto

theorem nodup_keys_processSection (answers : FormAnswers) (m : List (String × Bool))
    (sec : Section) (h : (keys m).Nodup) : (keys (processSection answers m sec)).Nodup :=
  nodup_keys_foldl_setEntry _ _ _ (nodup_keys_setEntry _ _ _ h)

theorem lookup_foldl_sections_notMem (answers : FormAnswers) (ss : List Section)
    (m : List (String × Bool)) (j : String) (h : j ∉ allIds ss) :
    lookupKey j (ss.foldl (processSection answers) m) = lookupKey j m := by
  induction ss generalizing m with
  | nil => rfl
  | cons sec rest ih =>
    rw [allIds] at h
    simp only [List.mem_append, List.mem_cons] at h
    push_neg at h
    rw [List.foldl_cons, ih _ h.2,
      lookup_processSection_notMem _ _ _ _ h.1.1 (by simpa using h.1.2)]

theorem mem_keys_foldl_sections (answers : FormAnswers) (ss : List Section)
    (m : List (String × Bool)) (j : String) :
    j ∈ keys (ss.foldl (processSection answers) m) ↔ j ∈ keys m ∨ j ∈ allIds ss := by
  induction ss generalizing m with
  | nil => simp [allIds]
  | cons sec rest ih =>
    rw [List.foldl_cons, ih, mem_keys_processSection, allIds, List.mem_append]
    tauto

theorem nodup_keys_foldl_sections (answers : FormAnswers) (ss : List Section)
    (m : List (String × Bool)) (h : (keys m).Nodup) :
    (keys (ss.foldl (processSection answers) m)).Nodup := by
  induction ss generalizing m with
  | nil => exact h
  | cons sec rest ih => exact ih _ (nodup_keys_processSection _ _ _ h)

/-! Characterization of the rule-set aggregation. -/

/-- Whether the rule list has a show-rule. -/
def hasShowRule (rules : List Logic) : Bool :=
  rules.any (fun r => decide (r.action = .show))

/-- Whether some show-rule's condition holds. -/
def anyShowTrue (rules : List Logic) (answers : FormAnswers) : Bool :=
  rules.any (fun r => decide (r.action = .show) && evaluateCondition r.condition answers)

/-- Whether the rule list has a hide-rule. -/
def hasHideRule (rules : List Logic) : Bool :=
  rules.any (fun r => decide (r.action = .hide))

/-- Whether some hide-rule's condition holds. -/
def anyHideTrue (rules : List Logic) (answers : FormAnswers) : Bool :=
  rules.any (fun r => decide (r.action = .hide) && evaluateCondition r.condition answers)

theorem logicFold_char (answers : FormAnswers) (rules : List Logic) (hs sr hh hr : Bool) :
    rules.foldl
      (fun (st : Bool × Bool × Bool × Bool) rule =>
        let conditionResult := evaluateCondition rule.condition answers
        match rule.action with
        | .show => (true, st.2.1 || conditionResult, st.2.2.1, st.2.2.2)
        | .hide => (st.1, st.2.1, true, st.2.2.2 || conditionResult)
        | _ => st)
      (hs, sr, hh, hr) =
    (hs || hasShowRule rules, sr || anyShowTrue rules answers,
      hh || hasHideRule rules, hr || anyHideTrue rules answers) := by
  induction rules generalizing hs sr hh hr with
  | nil => simp [hasShowRule, anyShowTrue, hasHideRule, anyHideTrue]
  | cons r rest ih =>
    obtain ⟨c, a⟩ := r
    cases a <;>
      simp [List.foldl_cons, ih, hasShowRule, anyShowTrue, hasHideRule, anyHideTrue,
        List.any_cons, Bool.or_assoc]

theorem anyHideTrue_imp_hasHideRule (rules : List Logic) (answers : FormAnswers)
    (h : anyHideTrue rules answers = true) : hasHideRule rules = true := by
  rw [anyHideTrue, List.any_eq_true] at h
  obtain ⟨r, hr, hp⟩ := h
  rw [hasHideRule, List.any_eq_true]
  simp only [Bool.and_eq_true] at hp
  exact ⟨r, hr, hp.1⟩

/-- `evaluateQuestionLogic` in closed form: show-rules OR together with a
true hide-rule overriding; only hide-rules negate their OR; no rules (of
either kind) default to visible. -/
theorem evaluateQuestionLogic_eq (questionId : String) (rules : List Logic)
    (answers : FormAnswers) :
    evaluateQuestionLogic questionId rules answers =
      (if hasShowRule rules then anyShowTrue rules answers && !anyHideTrue rules answers
       else if hasHideRule rules then !anyHideTrue rules answers
       else true) := by
  rw [evaluateQuestionLogic]
  by_cases hlen : rules.length = 0
  · rw [List.length_eq_zero] at hlen
    subst hlen
    simp [hasShowRule, hasHideRule]
  · simp only [hlen, if_false, logicFold_char, Bool.false_or]
    by_cases hsh : hasShowRule rules
    · simp only [hsh, if_true]
      cases hht : anyHideTrue rules answers
      · simp [hht]
      · simp [anyHideTrue_imp_hasHideRule rules answers hht]
    · simp [hsh]

/-! ## Claim C2 -/

/-- C2: the rule-set aggregation of `evaluateQuestionLogic` satisfies: with
zero rules the subject is visible; with at least one show-rule, the subject
is visible iff the OR of all show-rule condition results holds and no
hide-rule's condition is true (a true hide-rule overrides a true show-rule);
with only hide-rules (no show-rules), visible iff no hide-rule's condition
is true. -/
theorem rule_set_aggregation_spec (questionId : String) (rules : List Logic)
    (answers : FormAnswers) :
    (rules = [] → evaluateQuestionLogic questionId rules answers = true)
    ∧ (hasShowRule rules = true →
        evaluateQuestionLogic questionId rules answers =
          (anyShowTrue rules answers && !anyHideTrue rules answers))
    ∧ (hasShowRule rules = false → hasHideRule rules = true →
        evaluateQuestionLogic questionId rules answers = !anyHideTrue rules answers) := by
  refine ⟨fun h => ?_, fun h => ?_, fun h1 h2 => ?_⟩
  · subst h
    rfl
  · rw [evaluateQuestionLogic_eq]
    simp [h]
  · rw [evaluateQuestionLogic_eq]
    simp [h1, h2]

/-- Witness for C2 at a concrete show-rule whose condition is satisfied. -/
theorem rule_set_aggregation_spec_witness :
    evaluateQuestionLogic "x" [⟨⟨"q", .equals, .str "yes"⟩, .show⟩]
        [("q", Value.str "yes")] =
      (anyShowTrue [⟨⟨"q", .equals, .str "yes"⟩, .show⟩] [("q", Value.str "yes")] &&
        !anyHideTrue [⟨⟨"q", .equals, .str "yes"⟩, .show⟩] [("q", Value.str "yes")]) :=
  (rule_set_aggregation_spec "x" _ _).2.1 (by decide)

/-! ## Claim C4 -/

/-- C4: a condition whose source answer is absent (the id does not exist in
the answer set), `null`, or the empty string evaluates to false for every
operator, `notEquals` included; the evaluator is a total function, so it
never throws. -/
theorem unanswered_condition_false (condition : Condition) (answers : FormAnswers)
    (h : lookupKey condition.questionId answers = none ∨
        lookupKey condition.questionId answers = some .null ∨
        lookupKey condition.questionId answers = some (.str "")) :
    evaluateCondition condition answers = false := by
  rw [evaluateCondition]
  rcases h with h | h | h <;> rw [h] <;> simp

/-- Witness for C4: a `notEquals` condition over a question id missing from
the answer set. -/
theorem unanswered_condition_false_witness :
    evaluateCondition ⟨"missing", .notEquals, .str "x"⟩ [("other", Value.str "y")] = false :=
  unanswered_condition_false _ _ (Or.inl (by decide))

/-! ## Claim C9 -/

theorem any_filter_of_imp (p f : Logic → Bool) (rules : List Logic)
    (h : ∀ r, f r = true → p r = true) :
    (rules.filter p).any f = rules.any f := by
  induction rules with
  | nil => rfl
  | cons r rest ih =>
    by_cases hp : p r = true
    · rw [List.filter_cons_of_pos hp, List.any_cons, List.any_cons, ih]
    · have hf : f r = false := by
        cases hfr : f r
        · rfl
        · exact absurd (h r hfr) hp
      rw [List.filter_cons_of_neg hp, List.any_cons, hf, ih]
      simp

/-- C9: the `Logic` action type also has the actions `require` and `optional`, but the
visibility aggregation inspects only `show` and `hide`: filtering the rule
list down to show/hide rules does not change the result, and a subject all
of whose rules have action `require` or `optional` is visible. -/
theorem require_optional_rules_ignored (questionId : String) (rules : List Logic)
    (answers : FormAnswers) :
    evaluateQuestionLogic questionId
        (rules.filter (fun r => decide (r.action = .show) || decide (r.action = .hide)))
        answers =
      evaluateQuestionLogic questionId rules answers
    ∧ ((∀ r ∈ rules, r.action = .require ∨ r.action = .optional) →
        evaluateQuestionLogic questionId rules answers = true) := by
  constructor
  · have h1 := any_filter_of_imp
      (fun r => decide (r.action = .show) || decide (r.action = .hide))
      (fun r => decide (r.action = .show)) rules
      (fun r hf => by simp at hf ⊢; exact Or.inl hf)
    have h2 := any_filter_of_imp
      (fun r => decide (r.action = .show) || decide (r.action = .hide))
      (fun r => decide (r.action = .show) && evaluateCondition r.condition answers) rules
      (fun r hf => by simp at hf ⊢; exact Or.inl hf.1)
    have h3 := any_filter_of_imp
      (fun r => decide (r.action = .show) || decide (r.action = .hide))
      (fun r => decide (r.action = .hide)) rules
      (fun r hf => by simp at hf ⊢; exact Or.inr hf)
    have h4 := any_filter_of_imp
      (fun r => decide (r.action = .show) || decide (r.action = .hide))
      (fun r => decide (r.action = .hide) && evaluateCondition r.condition answers) rules
      (fun r hf => by simp at hf ⊢; exact Or.inr hf.1)
    rw [evaluateQuestionLogic_eq, evaluateQuestionLogic_eq]
    rw [hasShowRule, hasShowRule, h1, anyShowTrue, anyShowTrue, h2,
      hasHideRule, hasHideRule, h3, anyHideTrue, anyHideTrue, h4]
  · intro hall
    rw [evaluateQuestionLogic_eq]
    have hs : hasShowRule rules = false := by
      rw [hasShowRule, List.any_eq_false]
      intro r hr
      rcases hall r hr with h | h <;> simp [h]
    have hh : hasHideRule rules = false := by
      rw [hasHideRule, List.any_eq_false]
      intro r hr
      rcases hall r hr with h | h <;> simp [h]
    simp [hs, hh]

/-- Witness for C9: a subject with a single `require` rule is visible. -/
theorem require_optional_rules_ignored_witness :
    evaluateQuestionLogic "x" [⟨⟨"q", .equals, .str "a"⟩, .require⟩] [] = true :=
  (require_optional_rules_ignored "x" [⟨⟨"q", .equals, .str "a"⟩, .require⟩] []).2
    (by decide)

/-! ## Claim C3 -/

theorem allIds_append (l1 l2 : List Section) :
    allIds (l1 ++ l2) = allIds l1 ++ allIds l2 := by
  induction l1 with
  | nil => rfl
  | cons s rest ih => simp [allIds, ih]

/-- C3: under the data-model invariant that the section and question ids of a
form are pairwise distinct, if `evaluateVisibility` marks a section hidden,
every question nested in that section is marked hidden in the returned
visibility map. The statement holds for every form — in particular for every
rule list the nested questions may carry — so the value recorded for such a
question never depends on (and the code indeed never consults) the
question's own logic rules. -/
theorem hidden_section_questions_hidden (form : Form) (answers : FormAnswers)
    (hnd : (allIds form.sections).Nodup) (s : Section) (hs : s ∈ form.sections)
    (hhid : lookupKey s.id (evaluateVisibility form answers) = some false)
    (q : Question) (hq : q ∈ s.questions) :
    lookupKey q.id (evaluateVisibility form answers) = some false := by
  obtain ⟨pre, post, hsplit⟩ := List.append_of_mem hs
  have hids : allIds form.sections =
      allIds pre ++ ((s.id :: s.questions.map Question.id) ++ allIds post) := by
    rw [hsplit, allIds_append]
    rfl
  rw [hids, List.nodup_append] at hnd
  obtain ⟨-, hnd2, -⟩ := hnd
  rw [List.nodup_append] at hnd2
  obtain ⟨hnds, -, hdisj⟩ := hnd2
  have hsid_not_q : s.id ∉ s.questions.map Question.id := (List.nodup_cons.1 hnds).1
  have hq_nodup : (s.questions.map Question.id).Nodup := (List.nodup_cons.1 hnds).2
  have hsid_post : s.id ∉ allIds post := fun hmem => hdisj (List.mem_cons_self _ _) hmem
  have hqid_mem : q.id ∈ s.questions.map Question.id := List.mem_map_of_mem Question.id hq
  have hqid_post : q.id ∉ allIds post :=
    fun hmem => hdisj (List.mem_cons_of_mem _ hqid_mem) hmem
  have hfold : evaluateVisibility form answers =
      post.foldl (processSection answers)
        (processSection answers (pre.foldl (processSection answers) []) s) := by
    rw [evaluateVisibility, hsplit, List.foldl_append, List.foldl_cons]
  have h1 : lookupKey s.id (evaluateVisibility form answers) =
      some (sectionVisibleValue answers s) := by
    rw [hfold, lookup_foldl_sections_notMem _ _ _ _ hsid_post,
      lookup_processSection_self _ _ _ hsid_not_q]
  rw [h1] at hhid
  have hsv : sectionVisibleValue answers s = false := Option.some.inj hhid
  have h2 : lookupKey q.id (evaluateVisibility form answers) =
      some (questionVisValue (sectionVisibleValue answers s) answers q) := by
    rw [hfold, lookup_foldl_sections_notMem _ _ _ _ hqid_post,
      lookup_processSection_question _ _ _ _ hq hq_nodup]
  rw [h2, hsv]
  rfl

/-- Witness for C3: a section hidden by a hide-rule, containing a question
whose own (satisfied) show-rule is overridden by the section hide. -/
theorem hidden_section_questions_hidden_witness :
    lookupKey "qa"
      (evaluateVisibility
        { sections := [
            { id := "s1",
              questions := [
                { id := "qa", type := .text, label := "A",
                  logic := some [⟨⟨"q0", .equals, .str "x"⟩, .show⟩] } ],
              logic := some [⟨⟨"q0", .equals, .str "x"⟩, .hide⟩] } ] }
        [("q0", Value.str "x")]) = some false :=
  hidden_section_questions_hidden
    { sections := [
        { id := "s1",
          questions := [
            { id := "qa", type := .text, label := "A",
              logic := some [⟨⟨"q0", .equals, .str "x"⟩, .show⟩] } ],
          logic := some [⟨⟨"q0", .equals, .str "x"⟩, .hide⟩] } ] }
    [("q0", Value.str "x")] (by decide)
    { id := "s1",
      questions := [
        { id := "qa", type := .text, label := "A",
          logic := some [⟨⟨"q0", .equals, .str "x"⟩, .show⟩] } ],
      logic := some [⟨⟨"q0", .equals, .str "x"⟩, .hide⟩] }
    (by decide) (by decide)
    { id := "qa", type := .text, label := "A",
      logic := some [⟨⟨"q0", .equals, .str "x"⟩, .show⟩] }
    (by decide)

/-! ## Claim C10 -/

/-- C10: the visibility map contains exactly one boolean entry per section id
and question id of the form (its keys are duplicate-free and are exactly the
section and question ids), and `getVisibleQuestionIds` returns precisely the
ids mapped to `true` — hence, despite its name, it also contains the ids of
visible sections. -/
theorem visibility_map_spec (form : Form) (answers : FormAnswers) :
    (keys (evaluateVisibility form answers)).Nodup
    ∧ (∀ j, j ∈ keys (evaluateVisibility form answers) ↔ j ∈ allIds form.sections)
    ∧ (∀ j, j ∈ getVisibleQuestionIds form answers ↔
        lookupKey j (evaluateVisibility form answers) = some true) := by
  have hnd : (keys (evaluateVisibility form answers)).Nodup :=
    nodup_keys_foldl_sections _ _ _ (by simp [keys])
  refine ⟨hnd, ?_, ?_⟩
  · intro j
    rw [evaluateVisibility, mem_keys_foldl_sections]
    simp [keys]
  · intro j
    rw [getVisibleQuestionIds]
    constructor
    · intro hmem
      rw [List.mem_map] at hmem
      obtain ⟨p, hp, rfl⟩ := hmem
      obtain ⟨a, b⟩ := p
      rw [List.mem_filter] at hp
      have hb : b = true := hp.2
      subst hb
      exact (lookup_eq_some_iff_mem _ _ _ hnd).2 hp.1
    · intro hlook
      rw [lookup_eq_some_iff_mem _ _ _ hnd] at hlook
      rw [List.mem_map]
      exact ⟨(j, true), List.mem_filter.2 ⟨hlook, rfl⟩, rfl⟩

/-! ## Claim C1 -/

theorem lookup_schemaFold_const (visible : List String) (ss : List Section)
    (m : List (String × Zod)) (j : String) (hvis : visible.contains j = false)
    (h : lookupKey j m = some Zod.zAny.optional) :
    lookupKey j
      (ss.foldl
        (fun schemaObject sec =>
          sec.questions.foldl
            (fun so question => setEntry so question.id (schemaVal visible question))
            schemaObject)
        m) = some Zod.zAny.optional := by
  induction ss generalizing m with
  | nil => exact h
  | cons sec rest ih =>
    rw [List.foldl_cons]
    refine ih _ (lookup_foldl_setEntry_const _ _ _ _ _ (fun q' _ hq' => ?_) h)
    rw [schemaVal, hq', hvis]
    rfl

theorem lookup_schemaFold_write (visible : List String) (ss : List Section)
    (m : List (String × Zod)) (j : String) (hvis : visible.contains j = false)
    (s : Section) (q : Question) (hs : s ∈ ss) (hq : q ∈ s.questions) (hid : q.id = j) :
    lookupKey j
      (ss.foldl
        (fun schemaObject sec =>
          sec.questions.foldl
            (fun so question => setEntry so question.id (schemaVal visible question))
            schemaObject)
        m) = some Zod.zAny.optional := by
  induction ss generalizing m with
  | nil => cases hs
  | cons sec rest ih =>
    rcases List.mem_cons.1 hs with rfl | hmem
    · rw [List.foldl_cons]
      refine lookup_schemaFold_const _ _ _ _ hvis ?_
      refine lookup_foldl_setEntry_write _ _ _ _ _ _ hq hid (fun q' _ hq' => ?_)
      rw [schemaVal, hq', hvis]
      rfl
    · exact ih _ hmem

/-- C1: a question whose id is not in the `visibleQuestionIds` passed to
`buildZodSchema` is assigned `z.any().optional()`, so the derived validation
schema never fails that question's field — whatever the question's declared
`required` flag and whatever value the answer set stores for it. -/
theorem hidden_question_field_always_passes (form : Form) (visible : List String)
    (answers : FormAnswers) (s : Section) (q : Question)
    (hs : s ∈ form.sections) (hq : q ∈ s.questions)
    (hvis : visible.contains q.id = false) :
    fieldPasses (buildZodSchema form visible) answers q.id = true := by
  have hl : lookupKey q.id (buildZodSchema form visible) = some Zod.zAny.optional := by
    rw [buildZodSchema]
    exact lookup_schemaFold_write _ _ _ _ hvis s q hs hq rfl
  rw [fieldPasses, hl]
  cases lookupKey q.id answers with
  | none => rfl
  | some v => rfl

/-- Witness for C1: a required text question that is hidden passes validation
with an arbitrary non-string value stored. -/
theorem hidden_question_field_always_passes_witness :
    fieldPasses
      (buildZodSchema
        { sections := [
            { id := "s",
              questions := [{ id := "q", type := .text, label := "Q", required := some true }] } ] }
        [])
      [("q", Value.num 7)] "q" = true :=
  hidden_question_field_always_passes
    { sections := [
        { id := "s",
          questions := [{ id := "q", type := .text, label := "Q", required := some true }] } ] }
    [] [("q", Value.num 7)]
    { id := "s",
      questions := [{ id := "q", type := .text, label := "Q", required := some true }] }
    { id := "q", type := .text, label := "Q", required := some true }
    (by decide) (by decide) (by decide)

/-! ## Claim C5 -/

/-- C5: a checkbox question without declared options whose label matches the
consent heuristic (case-insensitive substring "consent", "agree", "accept"
or "terms") gets `z.boolean().refine(val => val === true)`: the derived
validator accepts the field iff the stored value is exactly the boolean
`true`, whatever the declared `required` flag (unset, false, or true). -/
theorem consent_checkbox_requires_true (q : Question) (hc : isConsentQuestion q = true)
    (hopt : q.options = none) (v : Option Value) :
    zodAccepts (buildQuestionSchema q) v = true ↔ v = some (Value.bool true) := by
  have ht : q.type = .checkbox := by
    have h2 := hc
    simp only [isConsentQuestion, Bool.and_eq_true, decide_eq_true_eq] at h2
    exact h2.1
  have hschema : buildQuestionSchema q = Zod.zBoolean.refineIsTrue := by
    simp only [buildQuestionSchema, ht, hc, if_true]
  rw [hschema]
  constructor
  · intro h
    rcases v with - | w
    · simp [zodAccepts, Zod.refineIsTrue] at h
    · rcases w with s | n | b | l | -
      · simp [zodAccepts, Zod.refineIsTrue] at h
      · simp [zodAccepts, Zod.refineIsTrue] at h
      · cases b
        · simp [zodAccepts, Zod.refineIsTrue] at h
        · rfl
      · simp [zodAccepts, Zod.refineIsTrue] at h
      · simp [zodAccepts, Zod.refineIsTrue] at h
  · rintro rfl
    rfl

/-- Witness for C5: the label "I agree to the terms" with `required` unset
still demands the boolean `true`. -/
theorem consent_checkbox_requires_true_witness :
    zodAccepts
      (buildQuestionSchema { id := "c1", type := .checkbox, label := "I agree to the terms" })
      (some (Value.bool true)) = true :=
  (consent_checkbox_requires_true
    { id := "c1", type := .checkbox, label := "I agree to the terms" }
    (by decide) rfl (some (Value.bool true))).mpr rfl

/-! ## Claim C6 -/

/-- C6 counterexample: a required number question with no configured
`validation.min` rejects the present negative value `-1`, because the
required branch appends a `.min(0)` bound — the claim asserts such a value
is accepted. -/
theorem required_number_rejects_negative_counterexample :
    zodAccepts
      (buildQuestionSchema { id := "n", type := .number, label := "Amount", required := some true })
      (some (Value.num (-1))) = false := by decide

/-- Specification definition for the amended C6, written from the corrected
claim's words: a number field coerces via `Number(...)` and rejects NaN,
enforces configured `validation.min` / `validation.max`, accepts an absent
value iff the question is not required, and for a required question
additionally enforces a minimum of `0`. Compared below against the schema
built from the source. -/
def numberFieldSpec (q : Question) : Option Value → Bool
  | none => !(boolTruthy q.required)
  | some w =>
    !(jsToNumber w).isNaN
      && (match q.validation.bind Validation.min with
          | some m => jsGeInt (jsToNumber w) m
          | none => true)
      && (!(boolTruthy q.required) || jsGeInt (jsToNumber w) 0)
      && (match q.validation.bind Validation.max with
          | some m => jsLeInt (jsToNumber w) m
          | none => true)

/-- C6 amended: for a number question the validator coerces with
`Number(...)` and rejects NaN, enforces `validation.min` / `validation.max`
when configured, an absent value is accepted iff the question is not
required, and — beyond mere presence — a required number question also
enforces a minimum of `0`, so present negative values are rejected. -/
theorem number_schema_spec (q : Question) (v : Option Value) (ht : q.type = .number) :
    zodAccepts (buildQuestionSchema q) v = numberFieldSpec q v := by
  rcases hmin : q.validation.bind Validation.min with - | mn <;>
    rcases hmax : q.validation.bind Validation.max with - | mx <;>
      cases hreq : boolTruthy q.required <;>
        simp only [buildQuestionSchema, ht, hmin, hmax, hreq, Zod.zmin, Zod.zmax,
          Zod.optional, Bool.not_false, Bool.not_true, if_true, if_false,
          Bool.true_or, Bool.false_or] <;>
        rcases v with - | w <;>
          simp [zodAccepts, numberFieldSpec, hmin, hmax, hreq, JSNum.isNaN, Bool.and_assoc]

/-- Witness for C6's amended theorem: Scenario D of the spec — a required
number question with `validation.min = 18` rejects the value "17". -/
theorem number_schema_spec_witness :
    zodAccepts
      (buildQuestionSchema
        { id := "n2", type := .number, label := "Age", required := some true,
          validation := some { min := some 18 } })
      (some (Value.str "17")) = false := by
  rw [number_schema_spec
    { id := "n2", type := .number, label := "Age", required := some true,
      validation := some { min := some 18 } }
    (some (Value.str "17")) rfl]
  decide

/-! ## Claim C7 -/

/-- C7 counterexample: a required email question with no `validation.pattern`
accepts "notanemail" although it fails the email pattern — the claim asserts
the pattern is checked whenever the question is required or the value is
non-empty, but the source only applies `.email()` when
`question.validation?.pattern` is truthy. -/
theorem required_email_without_pattern_counterexample :
    zodAccepts
      (buildQuestionSchema { id := "e", type := .email, label := "Email", required := some true })
      (some (Value.str "notanemail")) = true
    ∧ zodEmailCheck "notanemail" = false := by decide

/-- Specification definition for the amended C7, written from the corrected
claim's words: for text/textarea/email questions (signature labels aside),
a non-string present value is rejected, an absent value is accepted iff the
question is not required, and a string value must satisfy the email pattern
iff the question's type is email AND `validation.pattern` is set (truthy),
plus non-emptiness iff the question is required. Compared below against the
schema built from the source. -/
def stringFieldSpec (q : Question) : Option Value → Bool
  | some (.str s) =>
    (!(decide (q.type = .email) && patternTruthy q) || zodEmailCheck s)
      && (!(boolTruthy q.required) || decide (1 ≤ s.length))
  | none => !(boolTruthy q.required)
  | some _ => false

/-- C7 amended: for a non-signature text/textarea/email question, the email
pattern is applied iff the type is email and `validation.pattern` is set —
not whenever the question is required or the value is non-empty — and a
non-empty string is demanded exactly when the question is required. -/
theorem string_schema_spec (q : Question) (v : Option Value)
    (ht : q.type = .text ∨ q.type = .textarea ∨ q.type = .email)
    (hsig : isSignatureQuestion q = false) :
    zodAccepts (buildQuestionSchema q) v = stringFieldSpec q v := by
  have htext : (decide (QuestionType.text = QuestionType.email)) = false := rfl
  have htextarea : (decide (QuestionType.textarea = QuestionType.email)) = false := rfl
  have hemail : (decide (QuestionType.email = QuestionType.email)) = true := rfl
  rcases ht with ht | ht | ht <;>
    cases hreq : boolTruthy q.required <;>
      cases hpat : patternTruthy q <;>
        simp only [buildQuestionSchema, stringFieldSpec, ht, hsig, hreq, hpat,
          htext, htextarea, hemail, Bool.false_and, Bool.true_and, Bool.and_false,
          Bool.and_true, if_false, if_true, Bool.not_false, Bool.not_true,
          Zod.zmin, Zod.email, Zod.optional, Int.toNat_one] <;>
        rcases v with - | w <;>
          first
          | rfl
          | (rcases w with s | n | b | l | - <;>
              simp [zodAccepts, stringFieldSpec, hreq, hpat, ht, htext, htextarea,
                hemail, Int.toNat_one])

/-- Witness for C7's amended theorem: a required email question with a
configured pattern rejects a non-email string. -/
theorem string_schema_spec_witness :
    zodAccepts
      (buildQuestionSchema
        { id := "e2", type := .email, label := "Email", required := some true,
          validation := some { pattern := some "^\\S+@\\S+$" } })
      (some (Value.str "notanemail")) = false := by
  rw [string_schema_spec
    { id := "e2", type := .email, label := "Email", required := some true,
      validation := some { pattern := some "^\\S+@\\S+$" } }
    (some (Value.str "notanemail")) (Or.inr (Or.inr rfl)) (by decide)]
  decide

/-! ## Claim C8 -/

/-- C8 counterexample: with operator `greaterThan`, the source answer
"Infinity" converts to a number that is not finite, yet the condition
evaluates to true against the comparison value 5 — the claim asserts the
condition is false whenever either conversion does not yield a finite
number, but the source only rejects NaN (`isNaN`), not infinities. -/
theorem greaterThan_infinity_counterexample :
    evaluateCondition ⟨"q", .greaterThan, .num 5⟩ [("q", Value.str "Infinity")] = true
    ∧ jsToNumber (Value.str "Infinity") = JSNum.posInf
    ∧ (JSNum.posInf).isNaN = false := by decide

/-- C8 amended: for `greaterThan` / `lessThan`, once the source answer passes
the answered-guard (present, non-null, non-empty), the evaluator converts
both values with `Number(...)` and returns false iff either conversion
yields NaN; otherwise it returns the strict numeric comparison — in which
infinite values take part with their usual ordering rather than being
rejected. -/
theorem numeric_comparison_nan_guard (c : Condition) (answers : FormAnswers) (a : Value)
    (hop : c.operator = .greaterThan ∨ c.operator = .lessThan)
    (ha : lookupKey c.questionId answers = some a)
    (hnn : a ≠ .null) (hne : a ≠ .str "") :
    evaluateCondition c answers =
      (!(jsToNumber a).isNaN && !(jsToNumberL c.value).isNaN &&
        (if c.operator = .greaterThan then jsGt (jsToNumber a) (jsToNumberL c.value)
         else jsLt (jsToNumber a) (jsToNumberL c.value))) := by
  have hguard : ¬(a = .null ∨ a = .str "") := by tauto
  rcases hop with hop | hop <;> simp [evaluateCondition, ha, hop, hguard]

/-- Witness for C8's amended theorem: `lessThan` 18 with the answered value
"17" holds. -/
theorem numeric_comparison_nan_guard_witness :
    evaluateCondition ⟨"q", .lessThan, .num 18⟩ [("q", Value.str "17")] = true := by
  rw [numeric_comparison_nan_guard ⟨"q", .lessThan, .num 18⟩ [("q", Value.str "17")]
    (Value.str "17") (Or.inr rfl) (by decide) (by decide) (by decide)]
  decide

end Oprosniy
